import Mathlib

/-
Verification of the multi-account credential lifecycle and request-dispatch
engine of the antigravity-gemini-mcp server.

The JavaScript source is embedded shallowly:
  - account records, cached tokens and response payloads become structures
    with Option fields for possibly-absent JSON fields;
  - JavaScript string truthiness (empty string is falsy) is modelled by the
    truthy predicate on Option String;
  - the process-wide token cache becomes an explicit map passed in and out;
  - network effects (token refresh, endpoint fetches) become explicit input
    oracles, with the number of performed exchanges returned alongside.
-/

set_option maxRecDepth 4000

/-- An account record as persisted in accounts.json: fields email,
refreshToken, enabled (absent means enabled), isInvalid, projectId. -/
structure AccountRecord where
  email : String
  refreshToken : String
  enabled : Option Bool
  isInvalid : Bool
  projectId : Option String
  deriving DecidableEq, Repr

/-- Whether a JavaScript string value (possibly absent) is truthy:
present and nonempty. -/
def truthy : Option String → Bool
  | some s => s != ""
  | none => false

/-- Prefix test on character lists, used to embed String.prototype.includes
and the literal part of regular-expression scanning. -/
def charsMatch : List Char → List Char → Bool
  | [], _ => true
  | _ :: _, [] => false
  | p :: ps, c :: cs => p == c && charsMatch ps cs

/-- Substring containment on character lists: JavaScript includes. -/
def containsSub (pat : List Char) : List Char → Bool
  | [] => charsMatch pat []
  | c :: rest => charsMatch pat (c :: rest) || containsSub pat rest

/-- Lowercasing, embedding String.prototype.toLowerCase. -/
def jsToLower (s : String) : String := String.mk (s.data.map Char.toLower)

/-- parseInt on a run of decimal digits. -/
def parseDigits (ds : List Char) : Nat :=
  ds.foldl (fun acc c => acc * 10 + (c.toNat - 48)) 0

/-- The literal part of the regular expression gemini-(\d+). -/
def geminiPat : List Char := "gemini-".data

/-- First match of the regular expression gemini-(\d+) over a character
list: scan left to right; at the first position where the literal is
followed by at least one digit, take the maximal digit run and parse it. -/
def firstGeminiNum : List Char → Option Nat
  | [] => none
  | c :: rest =>
    if charsMatch geminiPat (c :: rest) then
      match ((c :: rest).drop geminiPat.length).takeWhile Char.isDigit with
      | [] => firstGeminiNum rest
      | ds => some (parseDigits ds)
    else firstGeminiNum rest

/-- isThinkingModel from src/constants.js: lowercase the name; true when it
contains the substring thinking, or when the first gemini-(\d+) match
parses to a major version of at least 3. -/
def isThinkingModel (modelName : String) : Bool :=
  if containsSub "thinking".data (jsToLower modelName).data then true
  else
    match firstGeminiNum (jsToLower modelName).data with
    | some n => decide (3 ≤ n)
    | none => false

/-- selectAccount from src/index.js (auth module): throws when the list is
empty, otherwise returns the account at currentIndex mod length and the
incremented counter. The returned Nat is the value of the process-wide
counter after the call. -/
def selectAccount (accounts : List AccountRecord) (currentIndex : Nat) :
    Except String AccountRecord × Nat :=
  if h : accounts.length = 0 then
    (Except.error "No accounts available", currentIndex)
  else
    (Except.ok (accounts.get ⟨currentIndex % accounts.length,
       Nat.mod_lt _ (Nat.pos_of_ne_zero h)⟩),
     currentIndex + 1)

/-- State of one JSON account file: absent, present but failing to parse,
or parsed with its accounts array (data.accounts or empty). -/
inductive FileState where
  | absent : FileState
  | malformed : FileState
  | parsed : List AccountRecord → FileState
  deriving DecidableEq, Repr

/-- The two account file locations read by the accounts module. -/
structure Fs where
  primary : FileState
  fallback : FileState
  deriving DecidableEq, Repr

/-- loadAccounts from the accounts module: if the primary config exists and
parses, return its accounts array; otherwise (absent or parse error) read
the fallback location and return its accounts when it parses; otherwise
return the empty list. The function never writes either location. -/
def loadAccounts (fs : Fs) : List AccountRecord :=
  match fs.primary with
  | FileState.parsed accs => accs
  | _ =>
    match fs.fallback with
    | FileState.parsed accs => accs
    | _ => []

/-- getEnabledAccounts from the accounts module: the loaded accounts
filtered to those with enabled not strictly equal to false and isInvalid
falsy. -/
def getEnabledAccounts (fs : Fs) : List AccountRecord :=
  (loadAccounts fs).filter (fun a => a.enabled != some false && !a.isInvalid)

/-- A sample enabled account used for concrete instances. -/
def acctA : AccountRecord :=
  ⟨"a@example.com", "tokA", some true, false, none⟩

/-- A second sample account used for concrete instances. -/
def acctB : AccountRecord :=
  ⟨"b@example.com", "tokB", none, false, none⟩

/-- C8: isThinkingModel returns true exactly when the lowercased name
contains the substring thinking or the first gemini-(\d+) match has major
version at least 3; with the four concrete classifications of the spec. -/
theorem isThinkingModel_spec :
    (∀ s : String,
      isThinkingModel s = true ↔
        (containsSub "thinking".data (jsToLower s).data = true ∨
         ∃ n, firstGeminiNum (jsToLower s).data = some n ∧ 3 ≤ n)) ∧
    isThinkingModel "gemini-3-flash" = true ∧
    isThinkingModel "gemini-2.5-flash" = false ∧
    isThinkingModel "gemini-2.5-flash-thinking" = true ∧
    isThinkingModel "" = false := by
  refine ⟨?_, by decide, by decide, by decide, by decide⟩
  intro s
  constructor
  · intro h
    unfold isThinkingModel at h
    by_cases hc : containsSub "thinking".data (jsToLower s).data = true
    · exact Or.inl hc
    · right
      rw [if_neg hc] at h
      cases hn : firstGeminiNum (jsToLower s).data with
      | none => rw [hn] at h; cases h
      | some n =>
        rw [hn] at h
        exact ⟨n, rfl, by simpa using h⟩
  · intro h
    unfold isThinkingModel
    by_cases hc : containsSub "thinking".data (jsToLower s).data = true
    · rw [if_pos hc]
    · rw [if_neg hc]
      rcases h with h | ⟨n, hn, h3⟩
      · exact absurd h hc
      · rw [hn]
        simpa using h3

/-- C4 counterexample: calling selectAccount on the empty sequence fails
with the no-accounts error and leaves the round-robin counter unchanged at
5, refuting the claim that the counter increments on every call. -/
theorem selectAccount_empty_counter_unchanged :
    selectAccount [] 5 = (Except.error "No accounts available", 5) ∧
    (selectAccount [] 5).2 ≠ 5 + 1 := by
  constructor
  · rfl
  · decide

/-- C4 amended: on an empty sequence selectAccount fails with the
no-accounts error and the counter is unchanged; on a non-empty sequence of
length K it returns the account at index counter mod K and increments the
counter by one. -/
theorem selectAccount_round_robin (accounts : List AccountRecord)
    (currentIndex : Nat) :
    (accounts.length = 0 →
      selectAccount accounts currentIndex =
        (Except.error "No accounts available", currentIndex)) ∧
    ∀ (hlt : currentIndex % accounts.length < accounts.length),
      selectAccount accounts currentIndex =
        (Except.ok (accounts.get ⟨currentIndex % accounts.length, hlt⟩),
         currentIndex + 1) := by
  constructor
  · intro h
    simp [selectAccount, h]
  · intro hlt
    have h : accounts.length ≠ 0 := by omega
    simp [selectAccount, h]

/-- C4 amended witness: with two accounts and counter 3, selectAccount
returns the account at index 1 and counter 4. -/
theorem selectAccount_round_robin_witness :
    selectAccount [acctA, acctB] 3 = (Except.ok acctB, 4) := by
  have h := (selectAccount_round_robin [acctA, acctB] 3).2 (by decide)
  simpa using h

/-- C5: getEnabledAccounts is the order-preserving filter of loadAccounts
keeping exactly the accounts whose enabled field is not false and whose
isInvalid flag is not set. -/
theorem getEnabledAccounts_filter (fs : Fs) :
    List.Sublist (getEnabledAccounts fs) (loadAccounts fs) ∧
    ∀ a : AccountRecord,
      a ∈ getEnabledAccounts fs ↔
        a ∈ loadAccounts fs ∧ a.enabled ≠ some false ∧ a.isInvalid = false := by
  constructor
  · exact List.filter_sublist _
  · intro a
    simp [getEnabledAccounts, List.mem_filter, and_assoc]

/-- C6 counterexample: with a primary file that parses to zero accounts and
a fallback file holding one account, loadAccounts returns the empty list
and not the fallback account, refuting the claim that a zero-account
primary causes the fallback to be used. -/
theorem loadAccounts_empty_primary_ignores_fallback :
    loadAccounts ⟨FileState.parsed [], FileState.parsed [acctA]⟩ = [] ∧
    loadAccounts ⟨FileState.parsed [], FileState.parsed [acctA]⟩ ≠ [acctA] := by
  exact ⟨rfl, by decide⟩

/-- C6 amended: when the primary location parses, its accounts are returned
even when there are zero of them; the fallback accounts are returned
exactly when the primary is absent or fails to parse; the fallback is never
written (loadAccounts is a pure read of the file states). -/
theorem loadAccounts_fallback (fs : Fs) :
    (∀ paccs, fs.primary = FileState.parsed paccs → loadAccounts fs = paccs) ∧
    ((fs.primary = FileState.absent ∨ fs.primary = FileState.malformed) →
      ∀ faccs, fs.fallback = FileState.parsed faccs → loadAccounts fs = faccs) := by
  constructor
  · intro paccs hp
    simp [loadAccounts, hp]
  · rintro (hp | hp) faccs hf
    · simp [loadAccounts, hp, hf]
    · simp [loadAccounts, hp, hf]

/-- C6 amended witness: an absent primary with a one-account fallback loads
the fallback account. -/
theorem loadAccounts_fallback_witness :
    loadAccounts ⟨FileState.absent, FileState.parsed [acctA]⟩ = [acctA] :=
  (loadAccounts_fallback ⟨FileState.absent, FileState.parsed [acctA]⟩).2
    (Or.inl rfl) [acctA] rfl

/-- usageMetadata of an upstream response: both token counters optional. -/
structure UsageMetadata where
  promptTokenCount : Option Nat
  candidatesTokenCount : Option Nat
  deriving DecidableEq, Repr

/-- One content part of an upstream candidate: a thought field or a text
field, each possibly absent. -/
structure GenPart where
  thought : Option String
  text : Option String
  deriving DecidableEq, Repr

/-- The content object of a candidate, with its optional parts array. -/
structure GenContent where
  parts : Option (List GenPart)
  deriving DecidableEq, Repr

/-- One candidate of an upstream response. -/
structure Candidate where
  content : Option GenContent
  finishReason : Option String
  deriving DecidableEq, Repr

/-- A parsed upstream response body (after the one-level envelope unwrap
performed by the caller where applicable). -/
structure GenData where
  usageMetadata : Option UsageMetadata
  candidates : Option (List Candidate)
  deriving DecidableEq, Repr

/-- A canonical content block of the normalized result. -/
inductive Block where
  | thinking : String → Block
  | text : String → Block
  deriving DecidableEq, Repr

/-- The normalized generation result: model id, content blocks, usage
counters and canonical stop reason. -/
structure GenResult where
  model : String
  content : List Block
  input_tokens : Nat
  output_tokens : Nat
  stop_reason : String
  deriving DecidableEq, Repr

/-- The finish-reason map of the buffered normalizer parseResponse:
STOP, MAX_TOKENS, SAFETY and RECITATION are mapped, anything else falls
back to end_turn. -/
def reasonMapBuffered (r : String) : String :=
  if r == "STOP" then "end_turn"
  else if r == "MAX_TOKENS" then "max_tokens"
  else if r == "SAFETY" then "content_filter"
  else if r == "RECITATION" then "content_filter"
  else "end_turn"

/-- The finish-reason map of the streaming normalizer parseSSEResponse:
only STOP, MAX_TOKENS and SAFETY are mapped; anything else, including
RECITATION, falls back to end_turn. -/
def reasonMapSSE (r : String) : String :=
  if r == "STOP" then "end_turn"
  else if r == "MAX_TOKENS" then "max_tokens"
  else if r == "SAFETY" then "content_filter"
  else "end_turn"

/-- parseResponse from src/api.js: usage counters default to 0, only the
first candidate is read, a truthy finishReason is mapped through the
buffered reason map, and each part becomes a thinking block (truthy
thought) or a text block (truthy text) in order. -/
def parseResponse (data : GenData) (model : String) : GenResult :=
  let input := (data.usageMetadata.bind UsageMetadata.promptTokenCount).getD 0
  let output := (data.usageMetadata.bind UsageMetadata.candidatesTokenCount).getD 0
  match data.candidates.bind List.head? with
  | none => ⟨model, [], input, output, "end_turn"⟩
  | some candidate =>
    let stop :=
      match candidate.finishReason with
      | some r => if r != "" then reasonMapBuffered r else "end_turn"
      | none => "end_turn"
    let parts := (candidate.content.bind GenContent.parts).getD []
    let blocks := parts.foldl
      (fun acc p =>
        if truthy p.thought then acc ++ [Block.thinking (p.thought.getD "")]
        else if truthy p.text then acc ++ [Block.text (p.text.getD "")]
        else acc) []
    ⟨model, blocks, input, output, stop⟩

/-- C10 counterexample: with an empty candidates array but a usageMetadata
carrying promptTokenCount 7, parseResponse reports input_tokens 7, not the
0 the claim demands for every candidates-absent-or-empty input. -/
theorem parseResponse_usage_not_zero :
    (parseResponse ⟨some ⟨some 7, none⟩, some []⟩ "m").input_tokens = 7 ∧
    (parseResponse ⟨some ⟨some 7, none⟩, some []⟩ "m").input_tokens ≠ 0 := by
  exact ⟨rfl, by decide⟩

/-- C10 amended: parseResponse is total, and on any input whose candidates
field is absent or empty it returns content [], stop_reason end_turn, and
usage counters read from usageMetadata with absent counters defaulting to
0 (so usage is zero exactly when the counters are absent). -/
theorem parseResponse_no_candidates (data : GenData) (model : String)
    (h : data.candidates = none ∨ data.candidates = some []) :
    parseResponse data model =
      ⟨model, [],
       (data.usageMetadata.bind UsageMetadata.promptTokenCount).getD 0,
       (data.usageMetadata.bind UsageMetadata.candidatesTokenCount).getD 0,
       "end_turn"⟩ := by
  rcases h with h | h
  · simp [parseResponse, h]
  · simp [parseResponse, h]

/-- C10 amended witness: on the fully absent body, parseResponse returns
the empty result with zero usage. -/
theorem parseResponse_no_candidates_witness :
    parseResponse ⟨none, none⟩ "m" = ⟨"m", [], 0, 0, "end_turn"⟩ := by
  simpa using parseResponse_no_candidates ⟨none, none⟩ "m" (Or.inl rfl)

/-- One line of an SSE response body: a data line whose JSON parsed (after
the per-frame envelope unwrap), a data line whose JSON failed to parse
(skipped), or a line without the data marker (skipped). -/
inductive SSEItem where
  | frame : GenData → SSEItem
  | badJson : SSEItem
  | nonData : SSEItem
  deriving DecidableEq, Repr

/-- The mutable state threaded through the SSE line loop of
parseSSEResponse: latest usage counters, current stop reason, and the two
accumulation strings. -/
structure SSEState where
  input_tokens : Nat
  output_tokens : Nat
  stop_reason : String
  thinkingText : String
  responseText : String
  deriving DecidableEq, Repr

/-- The inner part loop of parseSSEResponse: a truthy thought is appended
to the thinking accumulator, otherwise a truthy text is appended to the
response accumulator. -/
def accParts : String × String → List GenPart → String × String
  | acc, [] => acc
  | acc, p :: rest =>
    if truthy p.thought then accParts (acc.1 ++ p.thought.getD "", acc.2) rest
    else if truthy p.text then accParts (acc.1, acc.2 ++ p.text.getD "") rest
    else accParts acc rest

/-- The usage update of one frame: a present usageMetadata overwrites both
counters (absent counters give 0); an absent one leaves the state alone. -/
def applyUsage (st : SSEState) (d : GenData) : SSEState :=
  match d.usageMetadata with
  | some um =>
    { st with input_tokens := um.promptTokenCount.getD 0,
              output_tokens := um.candidatesTokenCount.getD 0 }
  | none => st

/-- The stop-reason update of one frame: a truthy finishReason of the first
candidate is mapped through the streaming reason map. -/
def applyStop (st : SSEState) (candidate : Option Candidate) : SSEState :=
  match candidate.bind Candidate.finishReason with
  | some fr => if fr != "" then { st with stop_reason := reasonMapSSE fr } else st
  | none => st

/-- Processing one SSE line in parseSSEResponse from src/api.js: non-data
and malformed lines are skipped; a frame updates usage, accumulates the
parts of the first candidate, and updates the stop reason. -/
def sseStep (st : SSEState) : SSEItem → SSEState
  | SSEItem.frame d =>
    let st1 := applyUsage st d
    let tr := accParts (st1.thinkingText, st1.responseText)
      ((((d.candidates.bind List.head?).bind Candidate.content).bind GenContent.parts).getD [])
    applyStop { st1 with thinkingText := tr.1, responseText := tr.2 }
      (d.candidates.bind List.head?)
  | _ => st

/-- The line loop of parseSSEResponse. -/
def sseLoop : SSEState → List SSEItem → SSEState
  | st, [] => st
  | st, it :: rest => sseLoop (sseStep st it) rest

/-- parseSSEResponse from src/api.js, on the already-split lines of the
response body: run the line loop from the initial state, then emit at most
one thinking block followed by at most one text block. -/
def parseSSEResponse (model : String) (items : List SSEItem) : GenResult :=
  let st := sseLoop ⟨0, 0, "end_turn", "", ""⟩ items
  ⟨model,
   (if st.thinkingText != "" then [Block.thinking st.thinkingText] else []) ++
   (if st.responseText != "" then [Block.text st.responseText] else []),
   st.input_tokens, st.output_tokens, st.stop_reason⟩

/-- Concatenation of a list of strings in order. -/
def strConcat : List String → String
  | [] => ""
  | s :: rest => s ++ strConcat rest

/-- The thinking contribution of one part, following the spec sentence: a
part with a truthy thought field is a thought part. -/
def partThoughtStr (p : GenPart) : String :=
  if truthy p.thought then p.thought.getD "" else ""

/-- The text contribution of one part: a part that is not a thought part
and has a truthy text field is a text part. -/
def partTextStr (p : GenPart) : String :=
  if truthy p.thought then "" else if truthy p.text then p.text.getD "" else ""

/-- The parts array carried by one SSE line: empty except for a frame with
a first candidate holding a parts array. -/
def frameParts : SSEItem → List GenPart
  | SSEItem.frame d =>
    (((d.candidates.bind List.head?).bind Candidate.content).bind GenContent.parts).getD []
  | _ => []

/-- The thinking text contributed by one SSE line. -/
def itemThought (it : SSEItem) : String :=
  strConcat ((frameParts it).map partThoughtStr)

/-- The response text contributed by one SSE line. -/
def itemText (it : SSEItem) : String :=
  strConcat ((frameParts it).map partTextStr)

/-- The concatenation, in arrival order, of all thought parts across all
frames of a stream. -/
def streamThought (items : List SSEItem) : String :=
  strConcat (items.map itemThought)

/-- The concatenation, in arrival order, of all text parts across all
frames of a stream. -/
def streamText (items : List SSEItem) : String :=
  strConcat (items.map itemText)

/-- The part loop accumulates exactly the per-category concatenations. -/
theorem accParts_spec (ps : List GenPart) :
    ∀ t r : String,
      accParts (t, r) ps =
        (t ++ strConcat (ps.map partThoughtStr),
         r ++ strConcat (ps.map partTextStr)) := by
  induction ps with
  | nil => intro t r; simp [accParts, strConcat]
  | cons p rest ih =>
    intro t r
    by_cases ht : truthy p.thought = true
    · have h1 : partThoughtStr p = p.thought.getD "" := by simp [partThoughtStr, ht]
      have h2 : partTextStr p = "" := by simp [partTextStr, ht]
      simp [accParts, ht, h1, h2, ih, strConcat, String.append_assoc,
        String.empty_append]
    · have ht' : truthy p.thought = false := by simpa using ht
      have h1 : partThoughtStr p = "" := by simp [partThoughtStr, ht']
      by_cases hx : truthy p.text = true
      · have h2 : partTextStr p = p.text.getD "" := by simp [partTextStr, ht', hx]
        simp [accParts, ht', hx, h1, h2, ih, strConcat, String.append_assoc,
          String.empty_append]
      · have hx' : truthy p.text = false := by simpa using hx
        have h2 : partTextStr p = "" := by simp [partTextStr, ht', hx']
        simp [accParts, ht', hx', h1, h2, ih, strConcat, String.append_assoc,
          String.empty_append]

/-- The usage update leaves both accumulation strings alone. -/
theorem applyUsage_texts (st : SSEState) (d : GenData) :
    (applyUsage st d).thinkingText = st.thinkingText ∧
    (applyUsage st d).responseText = st.responseText := by
  cases hu : d.usageMetadata <;> simp [applyUsage, hu]

/-- The stop-reason update leaves both accumulation strings alone. -/
theorem applyStop_texts (st : SSEState) (candidate : Option Candidate) :
    (applyStop st candidate).thinkingText = st.thinkingText ∧
    (applyStop st candidate).responseText = st.responseText := by
  cases hf : candidate.bind Candidate.finishReason with
  | none => simp [applyStop, hf]
  | some fr =>
    by_cases he : (fr != "") = true
    · simp [applyStop, hf, he]
    · have he' : (fr != "") = false := by simpa using he
      simp [applyStop, hf, he']

/-- One step of the line loop appends exactly the per-line contributions to
each accumulator. -/
theorem sseStep_texts (st : SSEState) (it : SSEItem) :
    (sseStep st it).thinkingText = st.thinkingText ++ itemThought it ∧
    (sseStep st it).responseText = st.responseText ++ itemText it := by
  cases it with
  | badJson => simp [sseStep, itemThought, itemText, frameParts, strConcat]
  | nonData => simp [sseStep, itemThought, itemText, frameParts, strConcat]
  | frame d =>
    constructor
    · rw [show sseStep st (SSEItem.frame d) =
          applyStop
            { applyUsage st d with
              thinkingText :=
                (accParts ((applyUsage st d).thinkingText, (applyUsage st d).responseText)
                  ((((d.candidates.bind List.head?).bind Candidate.content).bind
                    GenContent.parts).getD [])).1,
              responseText :=
                (accParts ((applyUsage st d).thinkingText, (applyUsage st d).responseText)
                  ((((d.candidates.bind List.head?).bind Candidate.content).bind
                    GenContent.parts).getD [])).2 }
            (d.candidates.bind List.head?) from rfl]
      rw [(applyStop_texts _ _).1]
      simp only [accParts_spec]
      rw [(applyUsage_texts st d).1]
      simp [itemThought, frameParts]
    · rw [show sseStep st (SSEItem.frame d) =
          applyStop
            { applyUsage st d with
              thinkingText :=
                (accParts ((applyUsage st d).thinkingText, (applyUsage st d).responseText)
                  ((((d.candidates.bind List.head?).bind Candidate.content).bind
                    GenContent.parts).getD [])).1,
              responseText :=
                (accParts ((applyUsage st d).thinkingText, (applyUsage st d).responseText)
                  ((((d.candidates.bind List.head?).bind Candidate.content).bind
                    GenContent.parts).getD [])).2 }
            (d.candidates.bind List.head?) from rfl]
      rw [(applyStop_texts _ _).2]
      simp only [accParts_spec]
      rw [(applyUsage_texts st d).2]
      simp [itemText, frameParts]

/-- The line loop accumulates exactly the per-category stream
concatenations, whatever the starting state. -/
theorem sseLoop_texts (items : List SSEItem) :
    ∀ st : SSEState,
      (sseLoop st items).thinkingText = st.thinkingText ++ streamThought items ∧
      (sseLoop st items).responseText = st.responseText ++ streamText items := by
  induction items with
  | nil => intro st; simp [sseLoop, streamThought, streamText, strConcat]
  | cons it rest ih =>
    intro st
    constructor
    · rw [show sseLoop st (it :: rest) = sseLoop (sseStep st it) rest from rfl,
        (ih (sseStep st it)).1, (sseStep_texts st it).1]
      simp [streamThought, strConcat, String.append_assoc]
    · rw [show sseLoop st (it :: rest) = sseLoop (sseStep st it) rest from rfl,
        (ih (sseStep st it)).2, (sseStep_texts st it).2]
      simp [streamText, strConcat, String.append_assoc]

/-- The three frames of the spec test vector: a thought a, a text b, and a
text c together with finishReason STOP. -/
def sseSpecVector : List SSEItem :=
  [SSEItem.frame ⟨none, some [⟨some ⟨some [⟨some "a", none⟩]⟩, none⟩]⟩,
   SSEItem.frame ⟨none, some [⟨some ⟨some [⟨none, some "b"⟩]⟩, none⟩]⟩,
   SSEItem.frame ⟨none, some [⟨some ⟨some [⟨none, some "c"⟩]⟩, some "STOP"⟩]⟩]

/-- C2: the streaming normalizer accumulates thought parts and text parts
by separate concatenation across all frames in arrival order and emits at
most one thinking block followed by at most one text block; on the spec
test vector the result is thinking a, text bc, stop reason end_turn. -/
theorem parseSSEResponse_spec :
    (∀ (model : String) (items : List SSEItem),
      (parseSSEResponse model items).content =
        (if streamThought items != "" then [Block.thinking (streamThought items)]
         else []) ++
        (if streamText items != "" then [Block.text (streamText items)] else [])) ∧
    parseSSEResponse "m" sseSpecVector =
      ⟨"m", [Block.thinking "a", Block.text "bc"], 0, 0, "end_turn"⟩ := by
  constructor
  · intro model items
    have h := sseLoop_texts items ⟨0, 0, "end_turn", "", ""⟩
    rw [show (parseSSEResponse model items).content =
        (if (sseLoop ⟨0, 0, "end_turn", "", ""⟩ items).thinkingText != "" then
          [Block.thinking (sseLoop ⟨0, 0, "end_turn", "", ""⟩ items).thinkingText]
         else []) ++
        (if (sseLoop ⟨0, 0, "end_turn", "", ""⟩ items).responseText != "" then
          [Block.text (sseLoop ⟨0, 0, "end_turn", "", ""⟩ items).responseText]
         else []) from rfl,
      h.1, h.2, String.empty_append, String.empty_append]
  · rfl

/-- A response body holding one candidate with no content and the given
finishReason, used to probe the stop-reason maps. -/
def reasonProbe (r : Option String) : GenData := ⟨none, some [⟨none, r⟩]⟩

/-- C9 counterexample: a streamed frame whose finishReason is RECITATION
normalizes to stop reason end_turn, not content_filter, refuting the claim
that both normalizers map RECITATION to content_filter. -/
theorem parseSSEResponse_recitation_not_filtered :
    (parseSSEResponse "m" [SSEItem.frame (reasonProbe (some "RECITATION"))]).stop_reason
      = "end_turn" ∧
    (parseSSEResponse "m" [SSEItem.frame (reasonProbe (some "RECITATION"))]).stop_reason
      ≠ "content_filter" := by
  exact ⟨rfl, by decide⟩

/-- C9 amended: the buffered normalizer maps STOP to end_turn, MAX_TOKENS
to max_tokens, SAFETY and RECITATION to content_filter, anything else or
absent to end_turn; the streaming normalizer maps STOP, MAX_TOKENS and
SAFETY the same way but maps RECITATION, like any unknown reason or an
absent one, to end_turn. -/
theorem stop_reason_mapping (r : String) (h : r ≠ "") :
    (parseResponse (reasonProbe (some r)) "m").stop_reason = reasonMapBuffered r ∧
    (parseSSEResponse "m" [SSEItem.frame (reasonProbe (some r))]).stop_reason
      = reasonMapSSE r ∧
    (parseResponse (reasonProbe none) "m").stop_reason = "end_turn" ∧
    (parseSSEResponse "m" [SSEItem.frame (reasonProbe none)]).stop_reason = "end_turn" ∧
    reasonMapBuffered "STOP" = "end_turn" ∧
    reasonMapBuffered "MAX_TOKENS" = "max_tokens" ∧
    reasonMapBuffered "SAFETY" = "content_filter" ∧
    reasonMapBuffered "RECITATION" = "content_filter" ∧
    reasonMapSSE "STOP" = "end_turn" ∧
    reasonMapSSE "MAX_TOKENS" = "max_tokens" ∧
    reasonMapSSE "SAFETY" = "content_filter" ∧
    reasonMapSSE "RECITATION" = "end_turn" := by
  have hb : (r != "") = true := by simpa using h
  refine ⟨?_, ?_, rfl, rfl, rfl, rfl, rfl, rfl, rfl, rfl, rfl, rfl⟩
  · simp [parseResponse, reasonProbe, hb]
  · simp [parseSSEResponse, sseLoop, sseStep, applyUsage, applyStop, accParts,
      reasonProbe, hb]

/-- C9 amended witness: at finishReason RECITATION the buffered normalizer
reports content_filter while the streaming normalizer reports end_turn. -/
theorem stop_reason_mapping_witness :
    (parseResponse (reasonProbe (some "RECITATION")) "m").stop_reason
      = "content_filter" ∧
    (parseSSEResponse "m" [SSEItem.frame (reasonProbe (some "RECITATION"))]).stop_reason
      = "end_turn" := by
  have h := stop_reason_mapping "RECITATION" (by decide)
  exact ⟨h.1.trans rfl, h.2.1.trans rfl⟩

/-- What one endpoint answers to the dispatched request: a success with a
parsed buffered body, or an HTTP error status with its error text. The
streaming transport differs from the buffered one only in the parser
applied to a successful body; the endpoint-fallback policy under scrutiny
is shared, so successful bodies are modelled in buffered form and the
scenarios below use a non-thinking model. -/
inductive EndpointResp where
  | ok : GenData → EndpointResp
  | httpErr : Nat → String → EndpointResp
  deriving DecidableEq, Repr

/-- The outcome of generateContent together with the number of endpoints
contacted. -/
structure DispatchOutcome where
  result : Except String GenResult
  attempts : Nat
  deriving Repr

/-- The error message built for a non-success HTTP response. -/
def errMsg (status : Nat) (body : String) : String :=
  "API error " ++ toString status ++ ": " ++ body

/-- The fatal-classification test in generateContent: a 4xx status other
than 429. -/
def isFatalClientStatus (status : Nat) : Bool :=
  400 ≤ status && status < 500 && status != 429

/-- The rethrow test of the catch block in generateContent: the message
contains 400 or invalid. -/
def msgAborts (msg : String) : Bool :=
  containsSub "400".data msg.data || containsSub "invalid".data msg.data

/-- The endpoint loop of generateContent from src/api.js. On a non-success
status the code records the error and throws it when the status is a 4xx
other than 429 - but that throw lands in the same loop body's catch, which
only rethrows when the message contains 400 or invalid, so the loop
actually aborts only when both tests pass; otherwise the next endpoint is
tried. On success the parsed body is normalized and returned at once.
When every endpoint has been consumed, the last recorded error (or the
all-endpoints-failed error) is raised. -/
def dispatchLoop (model : String) :
    Option String → Nat → List EndpointResp → DispatchOutcome
  | lastError, attempts, [] =>
    ⟨Except.error (lastError.getD "All endpoints failed"), attempts⟩
  | _lastError, attempts, resp :: rest =>
    match resp with
    | EndpointResp.ok body => ⟨Except.ok (parseResponse body model), attempts + 1⟩
    | EndpointResp.httpErr status body =>
      if isFatalClientStatus status && msgAborts (errMsg status body) then
        ⟨Except.error (errMsg status body), attempts + 1⟩
      else
        dispatchLoop model (some (errMsg status body)) (attempts + 1) rest

/-- generateContent from src/api.js, as a function of the per-endpoint
answers in endpoint order. -/
def generateContent (model : String) (responses : List EndpointResp) :
    DispatchOutcome :=
  dispatchLoop model none 0 responses

/-- A successful buffered body used in the dispatch scenarios. -/
def okBody : GenData :=
  ⟨some ⟨some 3, some 5⟩, some [⟨some ⟨some [⟨none, some "hi"⟩]⟩, some "STOP"⟩]⟩

/-- C1: a 404 from endpoint 1 does NOT abort the dispatch - the thrown
fatal error is swallowed by the loop's own catch because its message
contains neither 400 nor invalid, so endpoint 2 is contacted and its
normalized result returned (two endpoints contacted, where the claim and
the code's own comments demand one); a 503 from endpoint 1 followed by a
success on endpoint 2 returns the endpoint 2 result as claimed; only a
literal 400 status aborts after one endpoint. -/
theorem generateContent_404_retries :
    generateContent "gemini-2.5-flash"
        [EndpointResp.httpErr 404 "Not Found", EndpointResp.ok okBody] =
      ⟨Except.ok ⟨"gemini-2.5-flash", [Block.text "hi"], 3, 5, "end_turn"⟩, 2⟩ ∧
    generateContent "gemini-2.5-flash"
        [EndpointResp.httpErr 503 "Service Unavailable", EndpointResp.ok okBody] =
      ⟨Except.ok ⟨"gemini-2.5-flash", [Block.text "hi"], 3, 5, "end_turn"⟩, 2⟩ ∧
    generateContent "gemini-2.5-flash"
        [EndpointResp.httpErr 400 "Bad Request", EndpointResp.ok okBody] =
      ⟨Except.error "API error 400: Bad Request", 1⟩ := by
  refine ⟨?_, ?_, ?_⟩ <;> rfl

/-- An entry of the process-local token cache. -/
structure CachedToken where
  accessToken : String
  expiresAt : Int
  deriving DecidableEq, Repr

/-- The token cache, keyed by account email. -/
def TokenCache : Type := String → Option CachedToken

/-- Map.set on the token cache. -/
def cacheSet (cache : TokenCache) (email : String) (entry : CachedToken) :
    TokenCache :=
  fun e => if e == email then some entry else cache e

/-- The token cache ceiling from src/constants.js: five minutes in
milliseconds. -/
def TOKEN_CACHE_TTL_MS : Int := 5 * 60 * 1000

/-- The successful answer of the refresh-token exchange: access token and
reported expiry in seconds. -/
structure RefreshResult where
  accessToken : String
  expiresIn : Int
  deriving DecidableEq, Repr

/-- The observable outcome of getAccessToken: the returned token, the
token cache after the call, and the number of refresh-token exchanges
performed during the call. -/
structure TokenFetch where
  accessToken : String
  cache : TokenCache
  exchanges : Nat

/-- getAccessToken from src/index.js (auth module): return the cached
token when an entry for the account email exists and has not expired;
otherwise perform one refresh-token exchange (its successful answer is the
refreshed argument) and cache the new token keyed by email with expiry
now plus the minimum of (expiresIn - 60) seconds and the cache ceiling. -/
def getAccessToken (account : AccountRecord) (cache : TokenCache) (now : Int)
    (refreshed : RefreshResult) : TokenFetch :=
  match cache account.email with
  | some cached =>
    if cached.expiresAt > now then ⟨cached.accessToken, cache, 0⟩
    else
      ⟨refreshed.accessToken,
       cacheSet cache account.email
         ⟨refreshed.accessToken,
          now + min ((refreshed.expiresIn - 60) * 1000) TOKEN_CACHE_TTL_MS⟩,
       1⟩
  | none =>
    ⟨refreshed.accessToken,
     cacheSet cache account.email
       ⟨refreshed.accessToken,
        now + min ((refreshed.expiresIn - 60) * 1000) TOKEN_CACHE_TTL_MS⟩,
     1⟩

/-- C7: on a cache hit (entry present with expiry in the future),
getAccessToken returns the cached token unchanged, performs no exchange,
and returns the cache exactly as it was. -/
theorem getAccessToken_cache_hit (account : AccountRecord) (cache : TokenCache)
    (now : Int) (refreshed : RefreshResult) (cached : CachedToken)
    (hc : cache account.email = some cached) (hfresh : now < cached.expiresAt) :
    getAccessToken account cache now refreshed = ⟨cached.accessToken, cache, 0⟩ := by
  simp [getAccessToken, hc, hfresh]

/-- A concrete cache holding one unexpired entry for the sample account. -/
def cacheWithA : TokenCache :=
  cacheSet (fun _ => none) "a@example.com" ⟨"tokX", 100⟩

/-- C7 witness: with an entry expiring at 100 and the clock at 0, the
cached token is returned with zero exchanges and the cache untouched. -/
theorem getAccessToken_cache_hit_witness :
    getAccessToken acctA cacheWithA 0 ⟨"fresh", 3600⟩ =
      ⟨"tokX", cacheWithA, 0⟩ :=
  getAccessToken_cache_hit acctA cacheWithA 0 ⟨"fresh", 3600⟩ ⟨"tokX", 100⟩
    rfl (by decide)

/-- C3: on a cache miss or an expired entry, getAccessToken performs
exactly one refresh-token exchange, returns the refreshed token, and
stores an entry keyed by the account email whose expiry is the call time
plus min(reportedExpiresIn - 60, 300) seconds (in milliseconds), leaving
every other key of the cache unchanged. -/
theorem getAccessToken_refresh (account : AccountRecord) (cache : TokenCache)
    (now : Int) (refreshed : RefreshResult)
    (h : cache account.email = none ∨
         ∃ cached, cache account.email = some cached ∧ cached.expiresAt < now) :
    (getAccessToken account cache now refreshed).exchanges = 1 ∧
    (getAccessToken account cache now refreshed).accessToken =
      refreshed.accessToken ∧
    (getAccessToken account cache now refreshed).cache account.email =
      some ⟨refreshed.accessToken,
            now + 1000 * min (refreshed.expiresIn - 60) 300⟩ ∧
    ∀ e, e ≠ account.email →
      (getAccessToken account cache now refreshed).cache e = cache e := by
  have hmin : min ((refreshed.expiresIn - 60) * 1000) TOKEN_CACHE_TTL_MS =
      1000 * min (refreshed.expiresIn - 60) 300 := by
    rcases le_total (refreshed.expiresIn - 60) 300 with hle | hle
    · rw [min_eq_left (by unfold TOKEN_CACHE_TTL_MS; linarith), min_eq_left hle]
      ring
    · rw [min_eq_right (by unfold TOKEN_CACHE_TTL_MS; linarith), min_eq_right hle]
      norm_num [TOKEN_CACHE_TTL_MS]
  have hother : ∀ e, e ≠ account.email →
      cacheSet cache account.email
        ⟨refreshed.accessToken,
         now + min ((refreshed.expiresIn - 60) * 1000) TOKEN_CACHE_TTL_MS⟩ e =
        cache e := by
    intro e he
    simp [cacheSet, he]
  have hself :
      cacheSet cache account.email
        ⟨refreshed.accessToken,
         now + min ((refreshed.expiresIn - 60) * 1000) TOKEN_CACHE_TTL_MS⟩
        account.email =
      some ⟨refreshed.accessToken,
            now + 1000 * min (refreshed.expiresIn - 60) 300⟩ := by
    simp [cacheSet, hmin]
  rcases h with hc | ⟨cached, hc, hexp⟩
  · refine ⟨by simp [getAccessToken, hc], by simp [getAccessToken, hc],
      by simp [getAccessToken, hc, hself], ?_⟩
    intro e he
    simpa [getAccessToken, hc] using hother e he
  · have hnot : ¬ (cached.expiresAt > now) := by omega
    refine ⟨by simp [getAccessToken, hc, hnot], by simp [getAccessToken, hc, hnot],
      by simp [getAccessToken, hc, hnot, hself], ?_⟩
    intro e he
    simpa [getAccessToken, hc, hnot] using hother e he

/-- C3 witness: on an empty cache at time 0 with a reported expiry of 3600
seconds, one exchange happens and the stored entry expires at 300000
milliseconds, the five-minute ceiling. -/
theorem getAccessToken_refresh_witness :
    (getAccessToken acctA (fun _ => none) 0 ⟨"fresh", 3600⟩).exchanges = 1 ∧
    (getAccessToken acctA (fun _ => none) 0 ⟨"fresh", 3600⟩).cache
      acctA.email = some ⟨"fresh", 300000⟩ := by
  have h := getAccessToken_refresh acctA (fun _ => none) 0 ⟨"fresh", 3600⟩
    (Or.inl rfl)
  exact ⟨h.1, h.2.2.1.trans (by decide)⟩
